import Mathlib

/-!
# Verification of the ticker-preprocessing pipeline

Shallow embedding of `tta_automation_v2/00_ticker_preprocessing.py`:
the symbol normalizer (`clean_ticker_list`) and the liquidity filter
(`filter_by_basic_criteria`) with its retry/backoff loop, error
classification, checkpoint resume and per-symbol delay.

Numeric quote fields (market cap, price, volume) and delays are modelled
as rationals: the program only compares them against thresholds and
multiplies a base delay by integer powers, so no floating rounding is
involved in the properties considered here.

Side effects are made explicit:
* the fetch dependency is an oracle `String → Nat → FetchResult`
  (symbol and 0-based attempt index, mirroring `yf.Ticker(t).info` being
  called fresh on every attempt);
* every `time.sleep` call and every fetch call is recorded in an event
  trace (`RunEvent`);
* the checkpoint file present at start is a parameter
  (`Option (List TickerRecord)`); periodic checkpoint writes are recorded
  as trace events whose success flag comes from a `writeOk` oracle and,
  as in the source (`except Exception: pass`), never influences the state.
-/

namespace TickerPreprocessing

/-- The relevant fields of the `stock.info` dictionary, as read by
`filter_by_basic_criteria` (lines 119-125 of the source).  `none` models a
missing key (or a `None` value), matching `info.get(key)` / `info.get(key, 0)`. -/
structure Info where
  marketCap : Option Rat := none
  currentPrice : Option Rat := none
  regularMarketPrice : Option Rat := none
  volume : Option Rat := none
  averageVolume : Option Rat := none
  sector : Option String := none
  industry : Option String := none
  deriving DecidableEq

/-- Result of one fetch attempt (`yf.Ticker(ticker)` + `stock.info`):
either a populated info dictionary, or one of the exception kinds the
source catches: `requests.exceptions.HTTPError` carrying a status code,
`requests.exceptions.Timeout`, another `requests.exceptions.RequestException`,
or a generic `Exception`. -/
inductive FetchResult where
  | ok (info : Info)
  | httpError (status : Nat)
  | timeout
  | networkError
  | otherError
  deriving DecidableEq

/-- The value held by the `last_error` variable of the source.  On a timeout
the source assigns the *string* `"Timeout"` (line 180), not the exception
object; `timeoutMsg` models that string value. -/
inductive LastError where
  | noneYet
  | httpExc (status : Nat)
  | timeoutMsg
  | requestExc
  | otherExc
  deriving DecidableEq

/-- The error classes of the `error_details` dictionary (lines 79-85). -/
inductive ErrorKind where
  | rate_limit
  | not_found
  | timeout
  | network_error
  | other_error
  deriving DecidableEq

/-- The quote attributes extracted from an info dictionary
(lines 119-125). -/
structure Snapshot where
  market_cap : Rat
  price : Rat
  volume : Rat
  sector : String
  industry : String
  deriving DecidableEq

/-- A record appended to `viable_tickers` (lines 151-158), also the row
format of the checkpoint file. -/
structure TickerRecord where
  ticker : String
  market_cap : Rat
  price : Rat
  volume : Rat
  sector : String
  industry : String
  deriving DecidableEq

/-- `snap.toRecord t` is the dictionary appended for an accepted ticker. -/
def Snapshot.toRecord (s : Snapshot) (t : String) : TickerRecord :=
  { ticker := t, market_cap := s.market_cap, price := s.price,
    volume := s.volume, sector := s.sector, industry := s.industry }

/-- Python's `d.get(k1) or d.get(k2, 0)` on numeric values: the first value
is used unless it is missing/None or `0` (falsy), in which case the second
value (defaulting to `0`) is used.  Mirrors lines 120-121. -/
def pyGetOr (primary fallback : Option Rat) : Rat :=
  match primary with
  | some v => if v = 0 then fallback.getD 0 else v
  | none => fallback.getD 0

/-- Field extraction from the info dictionary (lines 119-125). -/
def extractSnapshot (info : Info) : Snapshot :=
  { market_cap := info.marketCap.getD 0
    price := pyGetOr info.currentPrice info.regularMarketPrice
    volume := pyGetOr info.volume info.averageVolume
    sector := info.sector.getD "Unknown"
    industry := info.industry.getD "Unknown" }

/-- The per-symbol terminal outcome of the attempt loop. -/
inductive SymbolOutcome where
  | noData
  | rejectMarketCap
  | rejectPrice
  | rejectVolume
  | accepted (snap : Snapshot)
  | notFound
  | exhausted (e : LastError)
  deriving DecidableEq

/-- The body of the success branch of the attempt loop (lines 119-160):
the no-data check followed by the three threshold predicates in fixed
order; otherwise the snapshot is accepted. -/
def evalInfo (min_market_cap min_price min_volume : Rat) (info : Info) :
    SymbolOutcome :=
  let s := extractSnapshot info
  if s.market_cap = 0 ∧ s.price = 0 ∧ s.volume = 0 then .noData
  else if s.market_cap > 0 ∧ s.market_cap < min_market_cap then .rejectMarketCap
  else if s.price > 0 ∧ s.price < min_price then .rejectPrice
  else if s.volume > 0 ∧ s.volume < min_volume then .rejectVolume
  else .accepted s

/-- Observable events of a run: a fetch call (symbol, attempt index), a
backoff sleep (lines 166-167, 176, 181, 186, 191), the fixed per-iteration
sleep of line 219, and a checkpoint write (lines 212-216) with the records
written and whether the write succeeded. -/
inductive RunEvent where
  | fetch (ticker : String) (attempt : Nat)
  | backoff (d : Rat)
  | fixedDelay (d : Rat)
  | checkpointWrite (records : List TickerRecord) (ok : Bool)
  deriving DecidableEq

/-- The tunable parameters of `filter_by_basic_criteria` (lines 65-71). -/
structure FilterParams where
  min_market_cap : Rat
  min_price : Rat
  min_volume : Rat
  max_retries : Nat
  base_delay : Rat
  checkpoint_interval : Nat
  deriving DecidableEq

/-- The retry loop `for attempt in range(max_retries)` (lines 113-192),
as recursion on the number of attempts remaining, carrying the current
attempt index and the `last_error` variable.  Returns the terminal outcome
(`exhausted` when the range is used up with `success` still false) together
with the fetch/backoff events performed. -/
def attemptLoopAux (t : String) (fetch : Nat → FetchResult)
    (p : FilterParams) :
    Nat → Nat → LastError → SymbolOutcome × List RunEvent
  | _, 0, lastErr => (.exhausted lastErr, [])
  | attempt, remaining + 1, _ =>
    match fetch attempt with
    | .ok info =>
      (evalInfo p.min_market_cap p.min_price p.min_volume info,
       [.fetch t attempt])
    | .httpError status =>
      if status = 429 then
        let rest := attemptLoopAux t fetch p (attempt + 1) remaining
          (.httpExc status)
        (rest.1, .fetch t attempt :: .backoff (p.base_delay * 3 ^ attempt) :: rest.2)
      else if status = 404 then
        (.notFound, [.fetch t attempt])
      else
        let rest := attemptLoopAux t fetch p (attempt + 1) remaining
          (.httpExc status)
        (rest.1, .fetch t attempt :: .backoff (p.base_delay * 2 ^ attempt) :: rest.2)
    | .timeout =>
      let rest := attemptLoopAux t fetch p (attempt + 1) remaining .timeoutMsg
      (rest.1, .fetch t attempt :: .backoff (p.base_delay * 2 ^ attempt) :: rest.2)
    | .networkError =>
      let rest := attemptLoopAux t fetch p (attempt + 1) remaining .requestExc
      (rest.1, .fetch t attempt :: .backoff (p.base_delay * 2 ^ attempt) :: rest.2)
    | .otherError =>
      let rest := attemptLoopAux t fetch p (attempt + 1) remaining .otherExc
      (rest.1, .fetch t attempt :: .backoff (p.base_delay * 2 ^ attempt) :: rest.2)

/-- One symbol's attempt loop, started at attempt 0 with `last_error = None`. -/
def processSymbol (oracle : String → Nat → FetchResult) (p : FilterParams)
    (t : String) : SymbolOutcome × List RunEvent :=
  attemptLoopAux t (oracle t) p 0 p.max_retries .noneYet

/-- The terminal outcome of one symbol. -/
def symOutcome (oracle : String → Nat → FetchResult) (p : FilterParams)
    (t : String) : SymbolOutcome :=
  (processSymbol oracle p t).1

/-- The classification of `last_error` when all retries failed
(lines 199-209).  The timeout handler stored the *string* `"Timeout"`, so
both `isinstance(last_error, Timeout)` and
`isinstance(last_error, RequestException)` are false for it and it falls
through to the `else` branch. -/
def classifyLastError : LastError → ErrorKind
  | .httpExc status => if status = 429 then .rate_limit else .other_error
  | .timeoutMsg => .other_error
  | .requestExc => .network_error
  | .otherExc => .other_error
  | .noneYet => .other_error

/-- The mutable aggregate of the filtering loop: `viable_tickers`,
`failed_tickers`, the `filtered_out` counters and the `error_details`
lists (lines 76-85). -/
structure FilterState where
  viable_tickers : List TickerRecord
  failed_tickers : List String
  fo_market_cap : Nat
  fo_price : Nat
  fo_volume : Nat
  fo_no_data : Nat
  ed_rate_limit : List String
  ed_not_found : List String
  ed_timeout : List String
  ed_network_error : List String
  ed_other_error : List String
  deriving DecidableEq

/-- Initial state: `viable_tickers` seeded from the checkpoint (if any),
everything else empty (lines 76-85, 96-106). -/
def initState (ckpt : List TickerRecord) : FilterState :=
  { viable_tickers := ckpt, failed_tickers := []
    fo_market_cap := 0, fo_price := 0, fo_volume := 0, fo_no_data := 0
    ed_rate_limit := [], ed_not_found := [], ed_timeout := []
    ed_network_error := [], ed_other_error := [] }

/-- Append a ticker to the `error_details` list for its class. -/
def addErrorDetail (s : FilterState) (t : String) : ErrorKind → FilterState
  | .rate_limit => { s with ed_rate_limit := s.ed_rate_limit ++ [t] }
  | .not_found => { s with ed_not_found := s.ed_not_found ++ [t] }
  | .timeout => { s with ed_timeout := s.ed_timeout ++ [t] }
  | .network_error => { s with ed_network_error := s.ed_network_error ++ [t] }
  | .other_error => { s with ed_other_error := s.ed_other_error ++ [t] }

/-- How one symbol's terminal outcome updates the aggregate state:
no-data (lines 128-132), the three threshold rejections (lines 134-148),
acceptance (lines 150-158), 404 (lines 169-173), and exhausted retries
(lines 194-209). -/
def applyOutcome (s : FilterState) (t : String) : SymbolOutcome → FilterState
  | .noData =>
    { s with fo_no_data := s.fo_no_data + 1
             failed_tickers := s.failed_tickers ++ [t] }
  | .rejectMarketCap => { s with fo_market_cap := s.fo_market_cap + 1 }
  | .rejectPrice => { s with fo_price := s.fo_price + 1 }
  | .rejectVolume => { s with fo_volume := s.fo_volume + 1 }
  | .accepted snap =>
    { s with viable_tickers := s.viable_tickers ++ [snap.toRecord t] }
  | .notFound => { s with ed_not_found := s.ed_not_found ++ [t] }
  | .exhausted e =>
    addErrorDetail
      { s with failed_tickers := s.failed_tickers ++ [t]
               fo_no_data := s.fo_no_data + 1 }
      t (classifyLastError e)

/-- The main loop over the (already sliced) ticker list (lines 108-219):
process the symbol, update the state, write a checkpoint when
`(idx + 1) % checkpoint_interval == 0 and viable_tickers` (write failures
are swallowed and never change the state), then sleep `base_delay`. -/
def runLoop (oracle : String → Nat → FetchResult) (p : FilterParams)
    (writeOk : Nat → Bool) :
    FilterState → Nat → List String → FilterState × List RunEvent
  | s, _, [] => (s, [])
  | s, idx, t :: ts =>
    let pr := processSymbol oracle p t
    let s2 := applyOutcome s t pr.1
    let ckptEvents : List RunEvent :=
      if (idx + 1) % p.checkpoint_interval = 0 ∧ s2.viable_tickers ≠ [] then
        [.checkpointWrite s2.viable_tickers (writeOk idx)]
      else []
    let rest := runLoop oracle p writeOk s2 (idx + 1) ts
    (rest.1, pr.2 ++ ckptEvents ++ [.fixedDelay p.base_delay] ++ rest.2)

/-- `filter_by_basic_criteria` (lines 65-236): load the checkpoint if
present, set `start_index` to its record count, and run the loop over
`tickers[start_index:]`.  Returns the final state (`viable_tickers`,
`failed_tickers`, `error_details`, plus the `filtered_out` counters) and
the event trace. -/
def filter_by_basic_criteria (oracle : String → Nat → FetchResult)
    (checkpoint : Option (List TickerRecord)) (tickers : List String)
    (p : FilterParams) (writeOk : Nat → Bool) :
    FilterState × List RunEvent :=
  let ckpt := checkpoint.getD []
  runLoop oracle p writeOk (initState ckpt) 0 (tickers.drop ckpt.length)

/-! ## Symbol normalizer (`clean_ticker_list`, lines 8-62) -/

/-- Python's substring test `needle in hay` on character lists. -/
def charsContain (needle : List Char) : List Char → Bool
  | [] => needle.isEmpty
  | c :: tl => needle.isPrefixOf (c :: tl) || charsContain needle tl

/-- Python's `sub in s` for strings. -/
def strContains (s sub : String) : Bool :=
  charsContain sub.toList s.toList

/-- Python's `s.strip()`: drop whitespace from both ends. -/
def pyStrip (s : String) : String :=
  ⟨((s.toList.dropWhile Char.isWhitespace).reverse.dropWhile
      Char.isWhitespace).reverse⟩

/-- Python's `s.upper()`. -/
def pyUpper (s : String) : String :=
  ⟨s.toList.map Char.toUpper⟩

/-- Python's `s.endswith(suffixPat)`. -/
def pyEndsWith (s suffixPat : String) : Bool :=
  suffixPat.toList.isSuffixOf s.toList

/-- The exclusion categories counted by `clean_ticker_list` (line 20). -/
inductive ExcludeReason where
  | warrants
  | units
  | preferred
  | rights
  | other
  deriving DecidableEq

/-- The exclusion decision of the loop body of `clean_ticker_list`
(lines 22-51): the symbol is trimmed, pattern rules are checked against
its upper-cased form in fixed order (special characters, warrant
suffixes, unit suffix, preferred substrings, rights suffix with a length
guard), and `none` means the symbol is kept. -/
def excludeReasonFor (ticker : String) : Option ExcludeReason :=
  let t := pyStrip ticker
  let u := pyUpper t
  if t.toList.contains '^' ∨ t.toList.contains '~' then some .other
  else if pyEndsWith u "W" ∨ pyEndsWith u "WS" ∨ pyEndsWith u "WT" then
    some .warrants
  else if pyEndsWith u "U" then some .units
  else if strContains u "-PR" ∨ strContains u "-P" then some .preferred
  else if pyEndsWith u "R" ∧ 4 < t.length then some .rights
  else none

/-- Output of `clean_ticker_list`: the kept (trimmed) symbols plus the
`excluded_count` dictionary. -/
structure CleanResult where
  clean_tickers : List String
  warrants : Nat
  units : Nat
  preferred : Nat
  rights : Nat
  other : Nat
  deriving DecidableEq

/-- One iteration of the `clean_ticker_list` loop. -/
def cleanStep (acc : CleanResult) (ticker : String) : CleanResult :=
  match excludeReasonFor ticker with
  | some .other => { acc with other := acc.other + 1 }
  | some .warrants => { acc with warrants := acc.warrants + 1 }
  | some .units => { acc with units := acc.units + 1 }
  | some .preferred => { acc with preferred := acc.preferred + 1 }
  | some .rights => { acc with rights := acc.rights + 1 }
  | none => { acc with clean_tickers := acc.clean_tickers ++ [pyStrip ticker] }

/-- `clean_ticker_list` (lines 8-62). -/
def clean_ticker_list (tickers : List String) : CleanResult :=
  tickers.foldl cleanStep ⟨[], 0, 0, 0, 0, 0⟩

/-- The spec's normalizer rules (spec section 4.1 / section 8) on an
already-trimmed symbol, amended at the unit rule: the source excludes
every symbol ending in `U`, with no `length > 1` guard.  The
special-character rule reads the symbol directly since `^` and `~` are
unaffected by upper-casing. -/
def specExcludeRule (t : String) : Option ExcludeReason :=
  let u := pyUpper t
  if t.toList.contains '^' ∨ t.toList.contains '~' then some .other
  else if pyEndsWith u "W" ∨ pyEndsWith u "WS" ∨ pyEndsWith u "WT" then
    some .warrants
  else if pyEndsWith u "U" then some .units
  else if strContains u "-PR" ∨ strContains u "-P" then some .preferred
  else if pyEndsWith u "R" ∧ 4 < t.length then some .rights
  else none

/-! ## Derived observations on runs -/

/-- The backoff sleep durations of an event trace, in order. -/
def backoffDelays (evs : List RunEvent) : List Rat :=
  evs.filterMap fun e =>
    match e with
    | .backoff d => some d
    | _ => none

/-- Whether an event is the fixed per-iteration sleep of line 219. -/
def isFixedDelayEv : RunEvent → Bool
  | .fixedDelay _ => true
  | _ => false

/-- Whether an event is a fetch call. -/
def isFetchEv : RunEvent → Bool
  | .fetch _ _ => true
  | _ => false

/-- The fetch calls of an event trace as (symbol, attempt) pairs, in order. -/
def fetchCalls (evs : List RunEvent) : List (String × Nat) :=
  evs.filterMap fun e =>
    match e with
    | .fetch t a => some (t, a)
    | _ => none

/-- The record added for `t` when it is accepted, and `none` otherwise. -/
def acceptedRecord (oracle : String → Nat → FetchResult) (p : FilterParams)
    (t : String) : Option TickerRecord :=
  match symOutcome oracle p t with
  | .accepted snap => some (snap.toRecord t)
  | _ => none

/-- Whether an outcome appends the symbol to `failed_tickers` (the no-data
branch of line 130 and the exhausted-retries branch of line 196). -/
def addsToFailed : SymbolOutcome → Bool
  | .noData => true
  | .exhausted _ => true
  | _ => false

/-- Whether an outcome increments `filtered_out['no_data']` (lines 129
and 197). -/
def addsToNoData : SymbolOutcome → Bool
  | .noData => true
  | .exhausted _ => true
  | _ => false

/-- The `error_details` list for a given error class. -/
def edList (s : FilterState) : ErrorKind → List String
  | .rate_limit => s.ed_rate_limit
  | .not_found => s.ed_not_found
  | .timeout => s.ed_timeout
  | .network_error => s.ed_network_error
  | .other_error => s.ed_other_error

/-- Whether an outcome appends the symbol to the `error_details` list of
class `k`: directly for a 404, via `classifyLastError` after exhausted
retries. -/
def addsToErr (k : ErrorKind) : SymbolOutcome → Bool
  | .notFound => k = ErrorKind.not_found
  | .exhausted e => classifyLastError e = k
  | _ => false

/-- Total number of per-symbol outcomes recorded in a state: accepted
records, threshold/no-data rejection counts, and 404s. -/
def outcomeMeasure (s : FilterState) : Nat :=
  s.viable_tickers.length + s.fo_market_cap + s.fo_price + s.fo_volume +
    s.fo_no_data + s.ed_not_found.length

/-- The symbols named by the fetch calls of a trace, in order, with one
entry per attempt. -/
def fetchedTickers (evs : List RunEvent) : List String :=
  (fetchCalls evs).map Prod.fst

/-- Concatenation of the images of a list under a list-valued function. -/
def concatMap (f : α → List β) : List α → List β
  | [] => []
  | x :: xs => f x ++ concatMap f xs

/-! ## Concrete fixtures for the end-to-end and counterexample runs -/

/-- The stub snapshot of the spec's end-to-end example:
`AAPL → {market_cap: 2.5e12, price: 180, volume: 5e7, sector: 'Technology'}`. -/
def aaplInfo : Info :=
  { marketCap := some 2500000000000, currentPrice := some 180,
    volume := some 50000000, sector := some "Technology" }

/-- The stub fetch of the end-to-end example: a populated snapshot for
`AAPL`, HTTP 404 for `ZZZZINVALID`. -/
def c1Oracle : String → Nat → FetchResult := fun t _ =>
  if t = "AAPL" then .ok aaplInfo
  else if t = "ZZZZINVALID" then .httpError 404
  else .otherError

/-- The thresholds of the end-to-end example
(`min_market_cap=1e6, min_price=1.0, min_volume=10000`), with
`max_retries=3`, `base_delay=0.25`, `checkpoint_interval=100`. -/
def testParams : FilterParams :=
  { min_market_cap := 1000000, min_price := 1, min_volume := 10000,
    max_retries := 3, base_delay := mkRat 1 4, checkpoint_interval := 100 }

/-- The end-to-end run: normalize `['AAPL','ZZZZINVALID','PENNY.W']`, then
filter the surviving symbols with the stub fetch. -/
def c1Run : FilterState × List RunEvent :=
  filter_by_basic_criteria c1Oracle none
    (clean_ticker_list ["AAPL", "ZZZZINVALID", "PENNY.W"]).clean_tickers
    testParams (fun _ => true)

/-- A run of one symbol whose fetch times out on every attempt. -/
def timeoutRun : FilterState × List RunEvent :=
  filter_by_basic_criteria (fun _ _ => .timeout) none ["TMO"] testParams
    (fun _ => true)

/-- A fetch stub that times out on the first attempt and succeeds on the
second, so the symbol requires exactly two attempts. -/
def twoAttemptOracle : String → Nat → FetchResult := fun _ a =>
  if a = 0 then .timeout else .ok aaplInfo

/-- A run of one symbol under `twoAttemptOracle`. -/
def twoAttemptRun : FilterState × List RunEvent :=
  filter_by_basic_criteria twoAttemptOracle none ["AAPL"] testParams
    (fun _ => true)

/-- A fetch stub returning a below-threshold market cap for `LOW` and the
`AAPL` snapshot otherwise. -/
def lowCapOracle : String → Nat → FetchResult := fun t _ =>
  if t = "LOW" then
    .ok { marketCap := some 5, currentPrice := some 180,
          volume := some 50000000 }
  else .ok aaplInfo

/-- A checkpoint with one already-accepted record, for the resume witness. -/
def ckptOne : List TickerRecord :=
  [{ ticker := "CKPT0", market_cap := 7000000, price := 10, volume := 20000,
     sector := "Energy", industry := "Oil" }]

/-- An info dictionary whose market cap sits exactly on the
`min_market_cap = 1e6` threshold. -/
def boundaryInfo : Info :=
  { marketCap := some 1000000, currentPrice := some 180,
    volume := some 50000 }

/-! ## General lemmas: the run as a fold of per-symbol outcomes -/

/-- `addErrorDetail` only touches the `error_details` lists. -/
theorem addErrorDetail_viable (s : FilterState) (t : String) (k : ErrorKind) :
    (addErrorDetail s t k).viable_tickers = s.viable_tickers := by
  cases k <;> rfl

/-- `addErrorDetail` leaves the failed list unchanged. -/
theorem addErrorDetail_failed (s : FilterState) (t : String) (k : ErrorKind) :
    (addErrorDetail s t k).failed_tickers = s.failed_tickers := by
  cases k <;> rfl

/-- `addErrorDetail` leaves the no-data counter unchanged. -/
theorem addErrorDetail_noData (s : FilterState) (t : String) (k : ErrorKind) :
    (addErrorDetail s t k).fo_no_data = s.fo_no_data := by
  cases k <;> rfl

/-- `addErrorDetail` leaves every threshold counter unchanged. -/
theorem addErrorDetail_counters (s : FilterState) (t : String)
    (k : ErrorKind) :
    (addErrorDetail s t k).fo_market_cap = s.fo_market_cap
    ∧ (addErrorDetail s t k).fo_price = s.fo_price
    ∧ (addErrorDetail s t k).fo_volume = s.fo_volume := by
  cases k <;> exact ⟨rfl, rfl, rfl⟩

/-- `addErrorDetail` appends to exactly the list of its class. -/
theorem addErrorDetail_edList (s : FilterState) (t : String)
    (k k2 : ErrorKind) :
    edList (addErrorDetail s t k) k2
      = edList s k2 ++ (if k = k2 then [t] else []) := by
  cases k <;> cases k2 <;> simp [addErrorDetail, edList]

/-- `classifyLastError` never yields the `not_found` class (a 404 is
terminal with `success = True`, so it never reaches the exhausted-retries
classifier). -/
theorem classifyLastError_ne_not_found (e : LastError) :
    classifyLastError e ≠ ErrorKind.not_found := by
  cases e <;> simp [classifyLastError] <;> split <;> simp

/-- One loop iteration adds exactly one recorded outcome. -/
theorem outcomeMeasure_applyOutcome (s : FilterState) (t : String)
    (o : SymbolOutcome) :
    outcomeMeasure (applyOutcome s t o) = outcomeMeasure s + 1 := by
  cases o with
  | exhausted e =>
    simp only [applyOutcome, outcomeMeasure, addErrorDetail_viable,
      addErrorDetail_noData, addErrorDetail_counters s t (classifyLastError e)
        |>.1]
    have h2 := addErrorDetail_counters
      { s with failed_tickers := s.failed_tickers ++ [t],
               fo_no_data := s.fo_no_data + 1 } t (classifyLastError e)
    have h3 := addErrorDetail_edList
      { s with failed_tickers := s.failed_tickers ++ [t],
               fo_no_data := s.fo_no_data + 1 } t (classifyLastError e)
      ErrorKind.not_found
    rw [show edList (addErrorDetail _ t (classifyLastError e))
          ErrorKind.not_found
        = (addErrorDetail _ t (classifyLastError e)).ed_not_found from rfl]
      at h3
    rw [h2.1, h2.2.1, h2.2.2, h3]
    simp [edList, classifyLastError_ne_not_found]
    omega
  | _ => simp [applyOutcome, outcomeMeasure] <;> omega

/-- The accepted records after one iteration. -/
theorem viable_applyOutcome (s : FilterState) (t : String)
    (o : SymbolOutcome) :
    (applyOutcome s t o).viable_tickers
      = s.viable_tickers ++
        (match o with
         | .accepted snap => [snap.toRecord t]
         | _ => []) := by
  cases o <;> simp [applyOutcome, addErrorDetail_viable]

/-- The failed list after one iteration. -/
theorem failed_applyOutcome (s : FilterState) (t : String)
    (o : SymbolOutcome) :
    (applyOutcome s t o).failed_tickers
      = s.failed_tickers ++ (if addsToFailed o then [t] else []) := by
  cases o <;> simp [applyOutcome, addsToFailed, addErrorDetail_failed]

/-- The no-data counter after one iteration. -/
theorem noData_applyOutcome (s : FilterState) (t : String)
    (o : SymbolOutcome) :
    (applyOutcome s t o).fo_no_data
      = s.fo_no_data + (if addsToNoData o then 1 else 0) := by
  cases o <;> simp [applyOutcome, addsToNoData, addErrorDetail_noData]

/-- The error-details list of each class after one iteration. -/
theorem edList_applyOutcome (s : FilterState) (t : String)
    (o : SymbolOutcome) (k : ErrorKind) :
    edList (applyOutcome s t o) k
      = edList s k ++ (if addsToErr k o then [t] else []) := by
  cases o with
  | notFound =>
    cases k <;> simp [applyOutcome, edList, addsToErr]
  | exhausted e =>
    simp only [applyOutcome, addsToErr, addErrorDetail_edList]
    have : edList
        { s with failed_tickers := s.failed_tickers ++ [t],
                 fo_no_data := s.fo_no_data + 1 } k = edList s k := by
      cases k <;> rfl
    rw [this]
    by_cases h : classifyLastError e = k <;> simp [h]
  | _ => cases k <;> simp [applyOutcome, edList, addsToErr]

/-- The final state of the loop is a left fold of the per-symbol outcomes
over the symbol list: each symbol's outcome depends only on the fetch
oracle, and neither the iteration index nor the checkpoint-write oracle
influences the state. -/
theorem runLoop_state (oracle : String → Nat → FetchResult)
    (p : FilterParams) (writeOk : Nat → Bool) :
    ∀ (ts : List String) (s : FilterState) (idx : Nat),
    (runLoop oracle p writeOk s idx ts).1
      = ts.foldl (fun st t => applyOutcome st t (symOutcome oracle p t)) s
  | [], _, _ => rfl
  | t :: ts, s, idx => by
    simp only [runLoop, List.foldl_cons]
    exact runLoop_state oracle p writeOk ts _ (idx + 1)

/-- The accepted records of a fold are the initial ones followed by the
records of the symbols whose outcome is acceptance, in input order. -/
theorem foldl_viable (oracle : String → Nat → FetchResult)
    (p : FilterParams) :
    ∀ (ts : List String) (s : FilterState),
    (ts.foldl (fun st t => applyOutcome st t (symOutcome oracle p t))
        s).viable_tickers
      = s.viable_tickers ++ ts.filterMap (acceptedRecord oracle p)
  | [], s => by simp
  | t :: ts, s => by
    simp only [List.foldl_cons, List.filterMap_cons]
    rw [foldl_viable oracle p ts, viable_applyOutcome]
    cases h : symOutcome oracle p t <;>
      simp [acceptedRecord, h]

/-- The failed list of a fold. -/
theorem foldl_failed (oracle : String → Nat → FetchResult)
    (p : FilterParams) :
    ∀ (ts : List String) (s : FilterState),
    (ts.foldl (fun st t => applyOutcome st t (symOutcome oracle p t))
        s).failed_tickers
      = s.failed_tickers
        ++ ts.filter (fun t => addsToFailed (symOutcome oracle p t))
  | [], s => by simp
  | t :: ts, s => by
    simp only [List.foldl_cons, List.filter_cons]
    rw [foldl_failed oracle p ts, failed_applyOutcome]
    by_cases h : addsToFailed (symOutcome oracle p t) <;> simp [h]

/-- The no-data counter of a fold. -/
theorem foldl_noData (oracle : String → Nat → FetchResult)
    (p : FilterParams) :
    ∀ (ts : List String) (s : FilterState),
    (ts.foldl (fun st t => applyOutcome st t (symOutcome oracle p t))
        s).fo_no_data
      = s.fo_no_data
        + ts.countP (fun t => addsToNoData (symOutcome oracle p t))
  | [], s => by simp
  | t :: ts, s => by
    simp only [List.foldl_cons, List.countP_cons]
    rw [foldl_noData oracle p ts, noData_applyOutcome]
    by_cases h : addsToNoData (symOutcome oracle p t) <;> simp [h] <;> omega

/-- The error-details list of each class of a fold. -/
theorem foldl_edList (oracle : String → Nat → FetchResult)
    (p : FilterParams) (k : ErrorKind) :
    ∀ (ts : List String) (s : FilterState),
    edList
        (ts.foldl (fun st t => applyOutcome st t (symOutcome oracle p t)) s)
        k
      = edList s k ++ ts.filter (fun t => addsToErr k (symOutcome oracle p t))
  | [], s => by simp
  | t :: ts, s => by
    simp only [List.foldl_cons, List.filter_cons]
    rw [foldl_edList oracle p k ts, edList_applyOutcome]
    by_cases h : addsToErr k (symOutcome oracle p t) <;> simp [h]

/-- The outcome measure of a fold grows by one per symbol processed. -/
theorem foldl_outcomeMeasure (oracle : String → Nat → FetchResult)
    (p : FilterParams) :
    ∀ (ts : List String) (s : FilterState),
    outcomeMeasure
        (ts.foldl (fun st t => applyOutcome st t (symOutcome oracle p t)) s)
      = outcomeMeasure s + ts.length
  | [], s => by simp
  | t :: ts, s => by
    simp only [List.foldl_cons, List.length_cons]
    rw [foldl_outcomeMeasure oracle p ts, outcomeMeasure_applyOutcome]
    omega

/-! ## Event-trace lemmas -/

/-- The attempt loop performs no fixed-delay sleep: the fixed sleep of
line 219 sits outside the retry loop. -/
theorem attemptLoopAux_no_fixedDelay (t : String)
    (fetch : Nat → FetchResult) (p : FilterParams) :
    ∀ (remaining attempt : Nat) (le : LastError),
    (attemptLoopAux t fetch p attempt remaining le).2.filter isFixedDelayEv
      = []
  | 0, _, _ => rfl
  | remaining + 1, attempt, le => by
    simp only [attemptLoopAux]
    cases fetch attempt with
    | ok info => simp [isFixedDelayEv]
    | httpError status =>
      by_cases h429 : status = 429
      · simp [h429, isFixedDelayEv,
          attemptLoopAux_no_fixedDelay t fetch p remaining (attempt + 1)]
      · by_cases h404 : status = 404
        · simp [h429, h404, isFixedDelayEv]
        · simp [h429, h404, isFixedDelayEv,
            attemptLoopAux_no_fixedDelay t fetch p remaining (attempt + 1)]
    | timeout =>
      simp [isFixedDelayEv,
        attemptLoopAux_no_fixedDelay t fetch p remaining (attempt + 1)]
    | networkError =>
      simp [isFixedDelayEv,
        attemptLoopAux_no_fixedDelay t fetch p remaining (attempt + 1)]
    | otherError =>
      simp [isFixedDelayEv,
        attemptLoopAux_no_fixedDelay t fetch p remaining (attempt + 1)]

/-- Membership in the fetch-call projection of a trace. -/
theorem mem_fetchCalls (evs : List RunEvent) (x : String × Nat) :
    x ∈ fetchCalls evs ↔ RunEvent.fetch x.1 x.2 ∈ evs := by
  obtain ⟨a, b⟩ := x
  simp only [fetchCalls, List.mem_filterMap]
  constructor
  · rintro ⟨e, he, hm⟩
    cases e <;> simp at hm
    obtain ⟨h1, h2⟩ := hm
    subst h1
    subst h2
    exact he
  · intro h
    exact ⟨_, h, rfl⟩

/-- Every fetch call of the attempt loop names the symbol being processed. -/
theorem attemptLoopAux_fetch_ticker (t : String)
    (fetch : Nat → FetchResult) (p : FilterParams) :
    ∀ (remaining attempt : Nat) (le : LastError) (s : String) (a : Nat),
    RunEvent.fetch s a ∈ (attemptLoopAux t fetch p attempt remaining le).2 →
      s = t
  | 0, _, _, s, a => by simp [attemptLoopAux]
  | remaining + 1, attempt, le, s, a => by
    simp only [attemptLoopAux]
    cases fetch attempt with
    | ok info =>
      intro h
      simp at h
      exact h.1
    | httpError status =>
      by_cases h429 : status = 429
      · simp only [h429, if_true]
        intro h
        simp at h
        rcases h with h | h
        · exact h.1
        · exact attemptLoopAux_fetch_ticker t fetch p remaining
            (attempt + 1) (.httpExc 429) s a h
      · by_cases h404 : status = 404
        · simp only [h429, if_false, h404, if_true]
          intro h
          simp at h
          exact h.1
        · simp only [h429, if_false, h404, if_false]
          intro h
          simp at h
          rcases h with h | h
          · exact h.1
          · exact attemptLoopAux_fetch_ticker t fetch p remaining
              (attempt + 1) (.httpExc status) s a h
    | timeout =>
      intro h
      simp at h
      rcases h with h | h
      · exact h.1
      · exact attemptLoopAux_fetch_ticker t fetch p remaining
          (attempt + 1) .timeoutMsg s a h
    | networkError =>
      intro h
      simp at h
      rcases h with h | h
      · exact h.1
      · exact attemptLoopAux_fetch_ticker t fetch p remaining
          (attempt + 1) .requestExc s a h
    | otherError =>
      intro h
      simp at h
      rcases h with h | h
      · exact h.1
      · exact attemptLoopAux_fetch_ticker t fetch p remaining
          (attempt + 1) .otherExc s a h

/-- When at least one attempt is allowed, the loop's first action is a
fetch of the symbol at the current attempt index. -/
theorem attemptLoopAux_fetchCalls_hd (t : String)
    (fetch : Nat → FetchResult) (p : FilterParams)
    (remaining attempt : Nat) (le : LastError) (h : 0 < remaining) :
    (t, attempt) ∈
      fetchCalls (attemptLoopAux t fetch p attempt remaining le).2 := by
  cases remaining with
  | zero => omega
  | succ r =>
    simp only [attemptLoopAux]
    cases fetch attempt with
    | ok info => simp [fetchCalls]
    | httpError status =>
      by_cases h429 : status = 429
      · simp [h429, fetchCalls]
      · by_cases h404 : status = 404
        · simp [h429, h404, fetchCalls]
        · simp [h429, h404, fetchCalls]
    | timeout => simp [fetchCalls]
    | networkError => simp [fetchCalls]
    | otherError => simp [fetchCalls]

/-- The fixed-delay events of a full run: exactly one sleep of
`base_delay` per processed symbol, regardless of how many attempts each
symbol needed and of every outcome. -/
theorem runLoop_fixedDelay (oracle : String → Nat → FetchResult)
    (p : FilterParams) (writeOk : Nat → Bool) :
    ∀ (ts : List String) (s : FilterState) (idx : Nat),
    (runLoop oracle p writeOk s idx ts).2.filter isFixedDelayEv
      = List.replicate ts.length (RunEvent.fixedDelay p.base_delay)
  | [], _, _ => rfl
  | t :: ts, s, idx => by
    simp only [runLoop, List.length_cons, List.replicate_succ,
      List.filter_append, processSymbol]
    rw [attemptLoopAux_no_fixedDelay,
      runLoop_fixedDelay oracle p writeOk ts _ (idx + 1)]
    split <;> simp [isFixedDelayEv]

/-- The fetch calls of a full run are the per-symbol fetch calls in input
order; they do not depend on the state, the iteration index, or the
checkpoint-write oracle. -/
theorem runLoop_fetchCalls (oracle : String → Nat → FetchResult)
    (p : FilterParams) (writeOk : Nat → Bool) :
    ∀ (ts : List String) (s : FilterState) (idx : Nat),
    fetchCalls (runLoop oracle p writeOk s idx ts).2
      = concatMap (fun t => fetchCalls (processSymbol oracle p t).2) ts
  | [], _, _ => rfl
  | t :: ts, s, idx => by
    have hrec := runLoop_fetchCalls oracle p writeOk ts
      (applyOutcome s t (processSymbol oracle p t).1) (idx + 1)
    simp only [runLoop, concatMap]
    simp only [fetchCalls, List.filterMap_append] at hrec ⊢
    rw [hrec]
    split <;> simp

/-- The backoff sleeps of the attempt loop under an all-429 fetch: growth
factor 3, one sleep per attempt, starting at the current attempt index. -/
theorem attemptLoopAux_backoff_429 (t : String)
    (fetch : Nat → FetchResult) (p : FilterParams)
    (hf : ∀ a, fetch a = .httpError 429) :
    ∀ (remaining attempt : Nat) (le : LastError),
    backoffDelays (attemptLoopAux t fetch p attempt remaining le).2
      = (List.range remaining).map
          (fun i => p.base_delay * 3 ^ (attempt + i))
  | 0, _, _ => rfl
  | remaining + 1, attempt, le => by
    simp only [attemptLoopAux, hf attempt, if_true, reduceIte,
      List.range_succ_eq_map, List.map_cons, List.map_map]
    have hrec := attemptLoopAux_backoff_429 t fetch p hf remaining
      (attempt + 1) (.httpExc 429)
    simp only [backoffDelays, List.filterMap_cons]
    simp only [backoffDelays] at hrec
    rw [hrec]
    have hfun : ∀ b : Rat, ((fun i => b * 3 ^ (attempt + i)) ∘ Nat.succ)
        = fun i => b * 3 ^ (attempt + 1 + i) := by
      intro b
      funext i
      simp only [Function.comp_apply]
      congr 2
      omega
    rw [hfun]
    simp

/-- A transient error other than a rate limit: a timeout, a network
error, a generic exception, or an HTTP error whose status is neither 429
nor 404.  All of these make the loop sleep `base_delay * 2 ^ attempt`
and retry. -/
def otherTransient : FetchResult → Prop
  | .timeout => True
  | .networkError => True
  | .otherError => True
  | .httpError s => s ≠ 429 ∧ s ≠ 404
  | .ok _ => False

/-- The backoff sleeps of the attempt loop when every attempt fails with
a non-rate-limit transient error: growth factor 2. -/
theorem attemptLoopAux_backoff_transient (t : String)
    (fetch : Nat → FetchResult) (p : FilterParams)
    (hf : ∀ a, otherTransient (fetch a)) :
    ∀ (remaining attempt : Nat) (le : LastError),
    backoffDelays (attemptLoopAux t fetch p attempt remaining le).2
      = (List.range remaining).map
          (fun i => p.base_delay * 2 ^ (attempt + i))
  | 0, _, _ => rfl
  | remaining + 1, attempt, le => by
    have hfun : ((fun i => p.base_delay * 2 ^ (attempt + i)) ∘ Nat.succ)
        = fun i => p.base_delay * 2 ^ (attempt + 1 + i) := by
      funext i
      simp only [Function.comp_apply]
      congr 2
      omega
    have ht := hf attempt
    simp only [attemptLoopAux]
    cases hcase : fetch attempt with
    | ok info => rw [hcase] at ht; exact absurd ht (by simp [otherTransient])
    | httpError status =>
      rw [hcase] at ht
      obtain ⟨h429, h404⟩ := ht
      have hrec := attemptLoopAux_backoff_transient t fetch p hf remaining
        (attempt + 1) (.httpExc status)
      simp only [h429, if_false, h404, List.range_succ_eq_map,
        List.map_cons, List.map_map, backoffDelays, List.filterMap_cons]
      simp only [backoffDelays] at hrec
      rw [hrec, hfun]
      simp
    | timeout =>
      have hrec := attemptLoopAux_backoff_transient t fetch p hf remaining
        (attempt + 1) .timeoutMsg
      simp only [List.range_succ_eq_map, List.map_cons, List.map_map,
        backoffDelays, List.filterMap_cons]
      simp only [backoffDelays] at hrec
      rw [hrec, hfun]
      simp
    | networkError =>
      have hrec := attemptLoopAux_backoff_transient t fetch p hf remaining
        (attempt + 1) .requestExc
      simp only [List.range_succ_eq_map, List.map_cons, List.map_map,
        backoffDelays, List.filterMap_cons]
      simp only [backoffDelays] at hrec
      rw [hrec, hfun]
      simp
    | otherError =>
      have hrec := attemptLoopAux_backoff_transient t fetch p hf remaining
        (attempt + 1) .otherExc
      simp only [List.range_succ_eq_map, List.map_cons, List.map_map,
        backoffDelays, List.filterMap_cons]
      simp only [backoffDelays] at hrec
      rw [hrec, hfun]
      simp

/-- The loop body of `clean_ticker_list` decides exclusion exactly as the
(amended) spec rules applied to the trimmed symbol. -/
theorem excludeReasonFor_eq_spec (t : String) :
    excludeReasonFor t = specExcludeRule (pyStrip t) := rfl

/-- Fold characterization of `clean_ticker_list`: kept symbols are the
trimmed inputs on which no rule fires, in order, and each exclusion
counter counts the trimmed inputs whose first firing rule is that
category. -/
theorem cleanStep_foldl :
    ∀ (tickers : List String) (acc : CleanResult),
    (tickers.foldl cleanStep acc).clean_tickers
      = acc.clean_tickers
        ++ (tickers.map pyStrip).filter (fun t => (specExcludeRule t).isNone)
    ∧ (tickers.foldl cleanStep acc).warrants
      = acc.warrants + (tickers.map pyStrip).countP
          (fun t => specExcludeRule t = some ExcludeReason.warrants)
    ∧ (tickers.foldl cleanStep acc).units
      = acc.units + (tickers.map pyStrip).countP
          (fun t => specExcludeRule t = some ExcludeReason.units)
    ∧ (tickers.foldl cleanStep acc).preferred
      = acc.preferred + (tickers.map pyStrip).countP
          (fun t => specExcludeRule t = some ExcludeReason.preferred)
    ∧ (tickers.foldl cleanStep acc).rights
      = acc.rights + (tickers.map pyStrip).countP
          (fun t => specExcludeRule t = some ExcludeReason.rights)
    ∧ (tickers.foldl cleanStep acc).other
      = acc.other + (tickers.map pyStrip).countP
          (fun t => specExcludeRule t = some ExcludeReason.other)
  | [], acc => by simp
  | t :: ts, acc => by
    have hrec := cleanStep_foldl ts (cleanStep acc t)
    simp only [List.foldl_cons, List.map_cons, List.filter_cons,
      List.countP_cons] at hrec ⊢
    have hspec : specExcludeRule (pyStrip t) = excludeReasonFor t := rfl
    obtain ⟨h1, h2, h3, h4, h5, h6⟩ := hrec
    rw [h1, h2, h3, h4, h5, h6, hspec]
    cases h : excludeReasonFor t with
    | none => simp [cleanStep, h]
    | some r => cases r <;> simp [cleanStep, h] <;> omega

/-- Each processed symbol is fetched at least once (when retries are
allowed) and never under another symbol's name: the set of symbols named
by its fetch calls is exactly the singleton of the symbol. -/
theorem processSymbol_fetched_toFinset (oracle : String → Nat → FetchResult)
    (p : FilterParams) (t : String) (hr : 1 ≤ p.max_retries) :
    (fetchedTickers (processSymbol oracle p t).2).toFinset = {t} := by
  apply Finset.ext
  intro x
  simp only [List.mem_toFinset, Finset.mem_singleton, fetchedTickers,
    List.mem_map]
  constructor
  · rintro ⟨pr, hpr, rfl⟩
    have hm := (mem_fetchCalls _ pr).1 hpr
    exact attemptLoopAux_fetch_ticker t (oracle t) p p.max_retries 0
      .noneYet pr.1 pr.2 hm
  · intro hx
    refine ⟨(t, 0), ?_, hx.symm⟩
    exact attemptLoopAux_fetchCalls_hd t (oracle t) p p.max_retries 0
      .noneYet (by omega)

/-- The set of symbols fetched by a run is exactly the set of symbols in
the processed slice (when at least one attempt is allowed). -/
theorem runLoop_fetched_toFinset (oracle : String → Nat → FetchResult)
    (p : FilterParams) (writeOk : Nat → Bool) (hr : 1 ≤ p.max_retries) :
    ∀ (ts : List String) (s : FilterState) (idx : Nat),
    (fetchedTickers (runLoop oracle p writeOk s idx ts).2).toFinset
      = ts.toFinset
  | [], s, idx => by
    simp [fetchedTickers, runLoop, fetchCalls]
  | t :: ts, s, idx => by
    have hstep : ∀ l : List RunEvent, fetchedTickers l
        = (fetchCalls l).map Prod.fst := fun _ => rfl
    simp only [fetchedTickers, runLoop_fetchCalls, concatMap,
      List.map_append, List.toFinset_append, List.toFinset_cons]
    have hsym := processSymbol_fetched_toFinset oracle p t hr
    simp only [fetchedTickers] at hsym
    rw [hsym]
    have hrest := runLoop_fetched_toFinset oracle p writeOk hr ts s idx
    simp only [fetchedTickers, runLoop_fetchCalls] at hrest
    rw [hrest]
    rw [Finset.insert_eq]

/-! ## Claim theorems -/

/-- Claim C1, counterexample: in the end-to-end example the 404 symbol
`ZZZZINVALID` is recorded only in `error_details['not_found']`; on a 404
the source sets `success = True` (line 172) so the exhausted-retries
branch that appends to `failed_tickers` (line 196) is skipped, and the
returned `failed_tickers` is empty, not `['ZZZZINVALID']`. -/
theorem c1_failed_list_counterexample :
    c1Run.1.failed_tickers ≠ ["ZZZZINVALID"] := by decide

/-- Claim C1 (amended): for input `['AAPL','ZZZZINVALID','PENNY.W']` with
thresholds `1e6 / 1.0 / 10000` and the stub fetch, the normalizer keeps
`['AAPL','ZZZZINVALID']` (dropping the warrant `PENNY.W`); the filter
accepts exactly the AAPL snapshot, returns an empty `failed_tickers`
list, and reports `ZZZZINVALID` in `error_details['not_found']` with
every other error-class list empty. -/
theorem c1_end_to_end :
    (clean_ticker_list ["AAPL", "ZZZZINVALID", "PENNY.W"]).clean_tickers
      = ["AAPL", "ZZZZINVALID"]
    ∧ c1Run.1.viable_tickers
      = [{ ticker := "AAPL", market_cap := 2500000000000, price := 180,
           volume := 50000000, sector := "Technology",
           industry := "Unknown" }]
    ∧ c1Run.1.failed_tickers = []
    ∧ c1Run.1.ed_not_found = ["ZZZZINVALID"]
    ∧ c1Run.1.ed_rate_limit = []
    ∧ c1Run.1.ed_timeout = []
    ∧ c1Run.1.ed_network_error = []
    ∧ c1Run.1.ed_other_error = [] := by decide

/-- Claim C2: a symbol timing out on every attempt should land in the
`timeout` error list, but the source stores the string `"Timeout"` in
`last_error` (line 180), so `isinstance(last_error, Timeout)` at line 204
never holds and the symbol is classified `other_error` instead.  This run
evaluates the code at the failing input: one symbol, all attempts time
out; it ends in `failed_tickers` and `other_error`, while the `timeout`
list stays empty. -/
theorem c2_timeout_misclassified :
    timeoutRun.1.failed_tickers = ["TMO"]
    ∧ timeoutRun.1.fo_no_data = 1
    ∧ timeoutRun.1.ed_timeout = []
    ∧ timeoutRun.1.ed_other_error = ["TMO"] := by decide

/-- Claim C3, counterexample: a symbol that requires two fetch attempts
(one timeout, one success) triggers exactly one fixed `base_delay` sleep,
not two: the `time.sleep(base_delay)` of line 219 runs once per symbol,
after the attempt loop, not between attempts. -/
theorem c3_per_attempt_delay_counterexample :
    twoAttemptRun.2.countP isFetchEv = 2
    ∧ twoAttemptRun.2.countP isFixedDelayEv = 1
    ∧ twoAttemptRun.2.countP isFixedDelayEv
        ≠ twoAttemptRun.2.countP isFetchEv := by decide

/-- Claim C3 (amended): the fixed `base_delay` sleep is applied exactly
once per processed symbol, after its attempt loop finishes, independent
of the backoff sleeps: the attempt loop itself emits no fixed-delay
sleep, and a full run emits one fixed sleep of `base_delay` per symbol
of the processed slice, for every fetch behavior. -/
theorem c3_fixed_delay_once_per_symbol (oracle : String → Nat → FetchResult)
    (checkpoint : Option (List TickerRecord)) (tickers : List String)
    (p : FilterParams) (writeOk : Nat → Bool) :
    (filter_by_basic_criteria oracle checkpoint tickers p
        writeOk).2.filter isFixedDelayEv
      = List.replicate (tickers.drop (checkpoint.getD []).length).length
          (RunEvent.fixedDelay p.base_delay)
    ∧ ∀ t, (processSymbol oracle p t).2.filter isFixedDelayEv = [] := by
  constructor
  · simp only [filter_by_basic_criteria]
    exact runLoop_fixedDelay oracle p writeOk _ _ _
  · intro t
    exact attemptLoopAux_no_fixedDelay t (oracle t) p p.max_retries 0
      .noneYet

/-- Claim C4, counterexample: the single-character symbol `U` is excluded
(counted as a unit), not passed through: the source's unit rule
(line 37) has no length guard. -/
theorem c4_single_u_counterexample :
    (clean_ticker_list ["U"]).clean_tickers = []
    ∧ (clean_ticker_list ["U"]).units = 1
    ∧ "U" ∉ (clean_ticker_list ["U"]).clean_tickers := by decide

/-- Claim C4 (amended): `clean_ticker_list` excludes exactly the trimmed
symbols on which one of the pattern rules fires — `*^*`/`*~*`, then
`*W`/`*WS`/`*WT`, then `*U` (with no length guard, so the single
character `U` is also excluded), then `*-PR*`/`*-P*`, then `*R` with
length > 4 — counting each excluded symbol under the first matching rule
in that fixed order, and passes every other symbol through unchanged
aside from whitespace trimming. -/
theorem c4_normalizer_rules (tickers : List String) :
    (clean_ticker_list tickers).clean_tickers
      = (tickers.map pyStrip).filter (fun t => (specExcludeRule t).isNone)
    ∧ (clean_ticker_list tickers).warrants
      = (tickers.map pyStrip).countP
          (fun t => specExcludeRule t = some ExcludeReason.warrants)
    ∧ (clean_ticker_list tickers).units
      = (tickers.map pyStrip).countP
          (fun t => specExcludeRule t = some ExcludeReason.units)
    ∧ (clean_ticker_list tickers).preferred
      = (tickers.map pyStrip).countP
          (fun t => specExcludeRule t = some ExcludeReason.preferred)
    ∧ (clean_ticker_list tickers).rights
      = (tickers.map pyStrip).countP
          (fun t => specExcludeRule t = some ExcludeReason.rights)
    ∧ (clean_ticker_list tickers).other
      = (tickers.map pyStrip).countP
          (fun t => specExcludeRule t = some ExcludeReason.other) := by
  have h := cleanStep_foldl tickers ⟨[], 0, 0, 0, 0, 0⟩
  simpa [clean_ticker_list] using h

/-- Claim C5: with a checkpoint holding `k` accepted records, the filter
fetches exactly the symbols of `input[k:]` — its fetch-call trace equals
that of a fresh run on `input[k:]`, and the set of symbols it fetches is
exactly the set of `input[k:]` — and its accepted list is the
checkpoint's records, in checkpoint order, followed by the records newly
accepted from `input[k:]`. -/
theorem c5_resume_correctness (oracle : String → Nat → FetchResult)
    (p : FilterParams) (w1 w2 : Nat → Bool) (ckpt : List TickerRecord)
    (tickers : List String) (hr : 1 ≤ p.max_retries) :
    (filter_by_basic_criteria oracle (some ckpt) tickers p
        w1).1.viable_tickers
      = ckpt ++ (filter_by_basic_criteria oracle none
          (tickers.drop ckpt.length) p w2).1.viable_tickers
    ∧ fetchCalls
        (filter_by_basic_criteria oracle (some ckpt) tickers p w1).2
      = fetchCalls (filter_by_basic_criteria oracle none
          (tickers.drop ckpt.length) p w2).2
    ∧ (fetchedTickers
        (filter_by_basic_criteria oracle (some ckpt) tickers p
          w1).2).toFinset
      = (tickers.drop ckpt.length).toFinset := by
  refine ⟨?_, ?_, ?_⟩
  · simp only [filter_by_basic_criteria, Option.getD_some, Option.getD_none]
    rw [runLoop_state, runLoop_state, foldl_viable, foldl_viable]
    simp [initState]
  · simp only [filter_by_basic_criteria, Option.getD_some, Option.getD_none]
    rw [runLoop_fetchCalls, runLoop_fetchCalls]
    simp
  · simp only [filter_by_basic_criteria, Option.getD_some]
    exact runLoop_fetched_toFinset oracle p w1 hr _ _ _

/-- Witness for C5: a one-record checkpoint skips the first input symbol
and the accepted list is the checkpoint record followed by the fresh
run's acceptances. -/
theorem c5_resume_correctness_witness :
    1 ≤ testParams.max_retries
    ∧ (filter_by_basic_criteria c1Oracle (some ckptOne)
          ["SKIPPED", "AAPL", "ZZZZINVALID"] testParams
          (fun _ => true)).1.viable_tickers
      = ckptOne ++ (filter_by_basic_criteria c1Oracle none
          (["SKIPPED", "AAPL", "ZZZZINVALID"].drop ckptOne.length)
          testParams (fun _ => true)).1.viable_tickers :=
  ⟨by decide,
   (c5_resume_correctness c1Oracle testParams (fun _ => true)
      (fun _ => true) ckptOne ["SKIPPED", "AAPL", "ZZZZINVALID"]
      (by decide)).1⟩

/-- Claim C6: for a symbol rate-limited (HTTP 429) on every attempt, the
backoff sleeps across the `max_retries` attempts are
`base_delay * 3^0, base_delay * 3^1, ...` (growth factor 3); for a symbol
failing every attempt with any other transient error (timeout, network
error, generic exception, or an HTTP error that is neither 429 nor 404),
they are `base_delay * 2^0, base_delay * 2^1, ...` (growth factor 2). -/
theorem c6_backoff_growth (p : FilterParams) (t : String)
    (f g : String → Nat → FetchResult)
    (hf : ∀ a, f t a = FetchResult.httpError 429)
    (hg : ∀ a, otherTransient (g t a)) :
    backoffDelays (processSymbol f p t).2
      = (List.range p.max_retries).map (fun a => p.base_delay * 3 ^ a)
    ∧ backoffDelays (processSymbol g p t).2
      = (List.range p.max_retries).map (fun a => p.base_delay * 2 ^ a) := by
  constructor
  · have h := attemptLoopAux_backoff_429 t (f t) p hf p.max_retries 0
      .noneYet
    simpa [processSymbol] using h
  · have h := attemptLoopAux_backoff_transient t (g t) p hg p.max_retries 0
      .noneYet
    simpa [processSymbol] using h

/-- Witness for C6: with `max_retries = 3` and `base_delay = 0.25`, the
rate-limit backoff sleeps are `0.25s, 0.75s, 2.25s`, matching the
source's own comment on line 166. -/
theorem c6_backoff_growth_witness :
    (∀ a : Nat,
      (fun (_ : String) (_ : Nat) => FetchResult.httpError 429) "X" a
        = FetchResult.httpError 429)
    ∧ backoffDelays (processSymbol
        (fun _ _ => FetchResult.httpError 429) testParams "X").2
      = (List.range testParams.max_retries).map
          (fun a => testParams.base_delay * 3 ^ a)
    ∧ backoffDelays (processSymbol
        (fun _ _ => FetchResult.timeout) testParams "X").2
      = (List.range testParams.max_retries).map
          (fun a => testParams.base_delay * 2 ^ a)
    ∧ (List.range testParams.max_retries).map
        (fun a => testParams.base_delay * 3 ^ a)
      = [mkRat 1 4, mkRat 3 4, mkRat 9 4] :=
  ⟨fun _ => rfl,
   (c6_backoff_growth testParams "X" (fun _ _ => .httpError 429)
      (fun _ _ => .timeout) (fun _ => rfl) (fun _ => trivial)).1,
   (c6_backoff_growth testParams "X" (fun _ _ => .httpError 429)
      (fun _ _ => .timeout) (fun _ => rfl) (fun _ => trivial)).2,
   by norm_num [testParams, List.range_succ]⟩

/-- Claim C7: the threshold predicates are strict and treat zero as
unknown.  A snapshot whose market cap equals `min_market_cap` (> 0) is
never rejected for market cap, and is accepted when its price and volume
also pass.  A snapshot with market cap 0 is never rejected for market
cap; it is classified no-data exactly when price and volume are also
zero, and otherwise falls through to the price and volume predicates in
fixed order. -/
theorem c7_threshold_boundary (mmc mp mv : Rat) (info : Info)
    (hpos : 0 < mmc) :
    ((extractSnapshot info).market_cap = mmc →
      evalInfo mmc mp mv info ≠ SymbolOutcome.rejectMarketCap
      ∧ (¬((extractSnapshot info).price > 0
            ∧ (extractSnapshot info).price < mp) →
         ¬((extractSnapshot info).volume > 0
            ∧ (extractSnapshot info).volume < mv) →
         evalInfo mmc mp mv info
           = SymbolOutcome.accepted (extractSnapshot info)))
    ∧ ((extractSnapshot info).market_cap = 0 →
      evalInfo mmc mp mv info ≠ SymbolOutcome.rejectMarketCap
      ∧ (evalInfo mmc mp mv info = SymbolOutcome.noData ↔
          (extractSnapshot info).price = 0
          ∧ (extractSnapshot info).volume = 0)
      ∧ (¬((extractSnapshot info).price = 0
            ∧ (extractSnapshot info).volume = 0) →
         evalInfo mmc mp mv info
           = if (extractSnapshot info).price > 0
                ∧ (extractSnapshot info).price < mp
             then SymbolOutcome.rejectPrice
             else if (extractSnapshot info).volume > 0
                ∧ (extractSnapshot info).volume < mv
             then SymbolOutcome.rejectVolume
             else SymbolOutcome.accepted (extractSnapshot info))) := by
  constructor
  · intro hmc
    constructor
    · simp only [evalInfo]
      split_ifs with h1 h2 <;> simp_all
    · intro hp hv
      simp only [evalInfo]
      split_ifs with h1 h2 h3 h4 <;> simp_all
  · intro hmc
    refine ⟨?_, ?_, ?_⟩
    · simp only [evalInfo]
      split_ifs with h1 h2 <;> simp_all
    · simp only [evalInfo]
      split_ifs with h1 h2 h3 h4 <;> simp_all
    · intro hnz
      simp only [evalInfo]
      split_ifs with h1 h2 h3 h4 <;> simp_all

/-- Witness for C7: with the threshold `1e6` and a snapshot whose market
cap is exactly `1e6`, the symbol is not rejected for market cap. -/
theorem c7_threshold_boundary_witness :
    0 < (1000000 : Rat)
    ∧ evalInfo 1000000 1 10000 boundaryInfo
        ≠ SymbolOutcome.rejectMarketCap :=
  ⟨by decide,
   ((c7_threshold_boundary 1000000 1 10000 boundaryInfo (by decide)).1
      (by decide)).1⟩

/-- Claim C8: the filter is total and isolates symbol-level failures:
its returned state is the same under every checkpoint-write success
oracle (write failures are swallowed, line 216), and for every fetch
behavior each symbol of the processed slice completes its loop iteration
— the trace holds exactly one end-of-iteration fixed delay per symbol —
so no symbol's failure prevents processing of the ones after it.  (The
embedding is a total function: every exception path of the source is a
handled branch, so the function always returns its three outputs.) -/
theorem c8_never_fatal (oracle : String → Nat → FetchResult)
    (checkpoint : Option (List TickerRecord)) (tickers : List String)
    (p : FilterParams) (w1 w2 : Nat → Bool) :
    (filter_by_basic_criteria oracle checkpoint tickers p w1).1
      = (filter_by_basic_criteria oracle checkpoint tickers p w2).1
    ∧ (filter_by_basic_criteria oracle checkpoint tickers p w1).2.countP
        isFixedDelayEv
      = (tickers.drop (checkpoint.getD []).length).length := by
  constructor
  · simp only [filter_by_basic_criteria]
    rw [runLoop_state, runLoop_state]
  · simp only [filter_by_basic_criteria]
    rw [List.countP_eq_length_filter, runLoop_fixedDelay,
      List.length_replicate]

/-- Claim C9: outcome conservation.  Each symbol of the processed slice
contributes exactly one outcome: the number of accepted records (beyond
the checkpoint's) plus the four `filtered_out` counters plus the length
of the `not_found` list equals the slice length; and the `no_data`
counter counts exactly the symbols whose outcome was a genuinely empty
record or exhausted retries. -/
theorem c9_outcome_conservation (oracle : String → Nat → FetchResult)
    (checkpoint : Option (List TickerRecord)) (tickers : List String)
    (p : FilterParams) (writeOk : Nat → Bool) :
    (filter_by_basic_criteria oracle checkpoint tickers p
        writeOk).1.viable_tickers.length
      + (filter_by_basic_criteria oracle checkpoint tickers p
          writeOk).1.fo_market_cap
      + (filter_by_basic_criteria oracle checkpoint tickers p
          writeOk).1.fo_price
      + (filter_by_basic_criteria oracle checkpoint tickers p
          writeOk).1.fo_volume
      + (filter_by_basic_criteria oracle checkpoint tickers p
          writeOk).1.fo_no_data
      + (filter_by_basic_criteria oracle checkpoint tickers p
          writeOk).1.ed_not_found.length
      = (checkpoint.getD []).length
        + (tickers.drop (checkpoint.getD []).length).length
    ∧ (filter_by_basic_criteria oracle checkpoint tickers p
        writeOk).1.fo_no_data
      = (tickers.drop (checkpoint.getD []).length).countP
          (fun t => addsToNoData (symOutcome oracle p t)) := by
  constructor
  · have h : outcomeMeasure
        (filter_by_basic_criteria oracle checkpoint tickers p writeOk).1
        = (checkpoint.getD []).length
          + (tickers.drop (checkpoint.getD []).length).length := by
      simp only [filter_by_basic_criteria]
      rw [runLoop_state, foldl_outcomeMeasure]
      simp [initState, outcomeMeasure]
    simpa [outcomeMeasure] using h
  · simp only [filter_by_basic_criteria]
    rw [runLoop_state, foldl_noData]
    simp [initState]

/-- Claim C10: a symbol rejected for a threshold is invisible in the
return value: one loop iteration on it changes none of the accepted
records, the failed list, or any error-details list (only the matching
counter moves), and in a fresh full run the symbol appears in none of
the three outputs. -/
theorem c10_threshold_reject_hidden (oracle : String → Nat → FetchResult)
    (p : FilterParams) (tickers : List String) (writeOk : Nat → Bool)
    (t : String)
    (h : symOutcome oracle p t = SymbolOutcome.rejectMarketCap
       ∨ symOutcome oracle p t = SymbolOutcome.rejectPrice
       ∨ symOutcome oracle p t = SymbolOutcome.rejectVolume) :
    (∀ r ∈ (filter_by_basic_criteria oracle none tickers p
        writeOk).1.viable_tickers, r.ticker ≠ t)
    ∧ t ∉ (filter_by_basic_criteria oracle none tickers p
        writeOk).1.failed_tickers
    ∧ (∀ k, t ∉ edList
        (filter_by_basic_criteria oracle none tickers p writeOk).1 k)
    ∧ ∀ s : FilterState,
        (applyOutcome s t (symOutcome oracle p t)).viable_tickers
          = s.viable_tickers
        ∧ (applyOutcome s t (symOutcome oracle p t)).failed_tickers
          = s.failed_tickers
        ∧ ∀ k, edList (applyOutcome s t (symOutcome oracle p t)) k
          = edList s k := by
  have hfb : (filter_by_basic_criteria oracle none tickers p writeOk).1
      = tickers.foldl
          (fun st u => applyOutcome st u (symOutcome oracle p u))
          (initState []) := by
    simp only [filter_by_basic_criteria, Option.getD_none]
    rw [runLoop_state]
    simp
  refine ⟨?_, ?_, ?_, ?_⟩
  · intro r hr hrt
    rw [hfb, foldl_viable] at hr
    simp only [initState, List.nil_append] at hr
    obtain ⟨u, hu, hacc⟩ := List.mem_filterMap.1 hr
    revert hacc
    cases hsym : symOutcome oracle p u with
    | accepted snap =>
      intro hacc
      simp only [acceptedRecord, hsym, Option.some_inj] at hacc
      have hut : u = t := by
        rw [← hrt, ← hacc]
        rfl
      rw [hut] at hsym
      rw [hsym] at h
      rcases h with h | h | h <;> cases h
    | _ => intro hacc <;> simp [acceptedRecord, hsym] at hacc
  · intro hmem
    rw [hfb, foldl_failed] at hmem
    simp only [initState, List.nil_append] at hmem
    have := List.of_mem_filter hmem
    rcases h with h | h | h <;> rw [h] at this <;> simp [addsToFailed] at this
  · intro k hmem
    rw [hfb, foldl_edList] at hmem
    simp only [initState] at hmem
    have hed : edList (initState []) k = [] := by
      cases k <;> rfl
    rw [show edList
        { viable_tickers := [], failed_tickers := [], fo_market_cap := 0,
          fo_price := 0, fo_volume := 0, fo_no_data := 0,
          ed_rate_limit := [], ed_not_found := [], ed_timeout := [],
          ed_network_error := [], ed_other_error := [] } k = [] from by
      cases k <;> rfl] at hmem
    simp only [List.nil_append] at hmem
    have := List.of_mem_filter hmem
    rcases h with h | h | h <;> rw [h] at this <;>
      simp [addsToErr] at this
  · intro s
    rcases h with h | h | h <;> rw [h] <;>
      exact ⟨rfl, rfl, fun k => by cases k <;> rfl⟩

/-- Witness for C10: the symbol `LOW`, rejected for market cap, appears
in none of the outputs of a fresh run on `['LOW', 'AAPL']`. -/
theorem c10_threshold_reject_hidden_witness :
    (symOutcome lowCapOracle testParams "LOW"
        = SymbolOutcome.rejectMarketCap
      ∨ symOutcome lowCapOracle testParams "LOW"
        = SymbolOutcome.rejectPrice
      ∨ symOutcome lowCapOracle testParams "LOW"
        = SymbolOutcome.rejectVolume)
    ∧ "LOW" ∉ (filter_by_basic_criteria lowCapOracle none ["LOW", "AAPL"]
        testParams (fun _ => true)).1.failed_tickers :=
  ⟨by decide,
   (c10_threshold_reject_hidden lowCapOracle testParams ["LOW", "AAPL"]
      (fun _ => true) "LOW" (by decide)).2.1⟩

end TickerPreprocessing
